import Mathlib

/-!
Verification development for the crib-dragger editor core
(`crib_dragger.py`): a shallow embedding of the partial-text buffer
(`PartialString`), the line wrapper (`TextArea.update_lines`), the cursor
state machine (the reactive validators `validate_cursor_x` /
`validate_cursor_y` and the cursor actions) and the edit engine
(`replace_char_at_cursor`, `action_delete_left`, `action_delete_right`,
`on_text_area_changed`).

Modelling conventions:
* Python `list` subscripts follow Python semantics: a negative index in
  `[-len, 0)` silently wraps to `len + i`; anything further out raises
  `IndexError`, modelled as `none`.
* Text is a `List Char`; the only line terminator handled by the model is
  the newline character, the one used throughout the repository.
* Textual's reactive attributes run `validate_<name>` on every assignment
  and then store the returned value; assignments performed inside a
  validator recursively trigger the other validator.  The mutual
  recursion is made total with an explicit fuel parameter; exhausting the
  fuel yields `none`, so every `some` result is a faithfully computed
  run of the Python code.
* Raised exceptions (`IndexError`, `ValueError` from a zero `range` step)
  are modelled as `none`.
-/

namespace CribDragger

/-- Python list read `l[i]`: negative indices in `[-len, 0)` wrap to the
end of the list, anything else out of `[0, len)` is an `IndexError`
(`none`). -/
def pyIdx {α : Type} (l : List α) (i : Int) : Option α :=
  if 0 ≤ i ∧ i < (l.length : Int) then l[i.toNat]?
  else if -(l.length : Int) ≤ i ∧ i < 0 then l[((l.length : Int) + i).toNat]?
  else none

/-- Python list write `l[i] = a`, with the same index semantics as
`pyIdx`. -/
def pyWrite {α : Type} (l : List α) (i : Int) (a : α) : Option (List α) :=
  if 0 ≤ i ∧ i < (l.length : Int) then some (l.set i.toNat a)
  else if -(l.length : Int) ≤ i ∧ i < 0 then some (l.set ((l.length : Int) + i).toNat a)
  else none

/-- Python slice `l[:i]` (a negative bound counts from the end, clamped
to an empty prefix). -/
def pySliceTo {α : Type} (l : List α) (i : Int) : List α :=
  if 0 ≤ i then l.take i.toNat else l.take ((l.length : Int) + i).toNat

/-- `PartialString`: a fixed-length buffer of optional characters
(`None` = unknown cell), mirroring the Python class's fields. -/
structure PartialString where
  length : Nat
  replacement : Char
  val : List (Option Char)
deriving DecidableEq

/-- `PartialString.__init__(length)`: all cells unknown, replacement
glyph `'_'`. -/
def PartialString.mk0 (n : Nat) : PartialString :=
  ⟨n, '_', List.replicate n none⟩

/-- `PartialString.__getitem__` with an integer subscript. -/
def PartialString.getItem (p : PartialString) (i : Int) : Option (Option Char) :=
  pyIdx p.val i

/-- `PartialString.__setitem__` with an integer subscript (the stored
value may be a character or `None`). -/
def PartialString.setItem (p : PartialString) (i : Int) (c : Option Char) :
    Option PartialString :=
  (pyWrite p.val i c).map fun v => { p with val := v }

/-- `PartialString.__delitem__`: resets the cell to `None`. -/
def PartialString.delItem (p : PartialString) (i : Int) : Option PartialString :=
  p.setItem i none

/-- `PartialString.__eq__` compares only the cell lists. -/
def PartialString.pyEq (p q : PartialString) : Prop :=
  p.val = q.val

/-- `PartialString.stringify` of a cell list: each unknown cell rendered
as the substitute character. -/
def PartialString.stringify (p : PartialString) (v : List (Option Char)) : List Char :=
  v.map fun x => x.getD p.replacement

/-! ## Line wrapping (`TextArea.update_lines`) -/

/-- Split a character list at every newline, keeping empty segments and a
final (possibly empty) segment. -/
def splitOnNl : List Char → List (List Char)
  | [] => [[]]
  | c :: rest =>
    if c = '\n' then [] :: splitOnNl rest
    else
      match splitOnNl rest with
      | [] => [[c]]
      | l :: ls => (c :: l) :: ls

/-- Python `str.splitlines` restricted to newline terminators: the empty
string yields no lines, and a trailing newline does not produce a
trailing empty line. -/
def pySplitlines (s : List Char) : List (List Char) :=
  if s = [] then []
  else if s.getLast? = some '\n' then (splitOnNl s).dropLast
  else splitOnNl s

/-- Consecutive chunks of size `k + 1` (Python `[x[i:i+m] for i in
range(0, len(x), m)]` with `m = k + 1`); the counter argument of the
worker is the remaining capacity of the chunk being accumulated. -/
def chunksOf.go (k : Nat) : List Char → Nat → List Char → List (List Char)
  | [], _, acc => [acc.reverse]
  | c :: cs, 0, acc => acc.reverse :: chunksOf.go k cs k [c]
  | c :: cs, n + 1, acc => chunksOf.go k cs n (c :: acc)

/-- Entry point of the chunker: an empty raw line yields no chunks (the
Python `range` is empty), a nonempty one starts the first chunk. -/
def chunksOf (k : Nat) (l : List Char) : List (List Char) :=
  match l with
  | [] => []
  | c :: cs => chunksOf.go k cs k [c]

/-- Reinsert one newline between consecutive display lines. -/
def joinNl : List (List Char) → List Char
  | [] => []
  | [l] => l
  | l :: l' :: ls => l ++ '\n' :: joinNl (l' :: ls)

/-- `TextArea.update_lines(window_len)`: splits the reference text on
newlines and chops every raw line of length `≥ 2 * window_len` into
chunks of that size.  The computed lines are appended (`self.lines.extend`
/ `append`) to the line list already stored on the widget.  With
`window_len = 0` every raw line enters the chunking branch and Python's
`range(0, len(x), 0)` raises `ValueError`, modelled as `none`. -/
def update_lines (prevLines : List (List Char)) (text : List Char)
    (window_len : Nat) : Option (List (List Char)) :=
  if window_len * 2 = 0 ∧ pySplitlines text ≠ [] then none
  else
    some (prevLines ++ (pySplitlines text).flatMap fun x =>
      if window_len * 2 ≤ x.length then chunksOf (window_len * 2 - 1) x
      else [x])

/-! ## Editor state and the cursor state machine -/

/-- The parts of the `TextArea` widget state that the core manipulates:
the wrapped display lines, the two reactive cursor attributes and the
`PartialString` buffer. -/
structure EditorState where
  lines : List (List Char)
  cursor_x : Int
  cursor_y : Int
  value : PartialString
deriving DecidableEq

/-- `_line_length()` inside `validate_cursor_x`:
`len(self.lines[self.cursor_y])`, with Python index semantics. -/
def lineLen (s : EditorState) : Option Nat :=
  (pyIdx s.lines s.cursor_y).map List.length

/-- The row-clamping prefix of `validate_cursor_y`: `if y < 0: y = 0`
then `if y >= len(lines): y = len(lines) - 1`. -/
def vyClampRow (lineCount : Nat) (v : Int) : Int :=
  if (lineCount : Int) ≤ (if v < 0 then 0 else v) then (lineCount : Int) - 1
  else if v < 0 then 0 else v

/-- The `if x < 0` branch of `validate_cursor_x`, parameterized by the
recursive reactive row assignment: possibly steps `self.cursor_y` back
one row and rewrites `x`; returns the intermediate widget state and
`x`. -/
def vxStage1 (setY : EditorState → Int → Option EditorState)
    (s : EditorState) (v : Int) : Option (EditorState × Int) :=
  if v < 0 then
    (setY s (s.cursor_y - 1)).bind fun s1 =>
      if s.cursor_y = s1.cursor_y then some (s1, (0 : Int))
      else (lineLen s1).map fun (n : Nat) => (s1, (n : Int) - 1)
  else some (s, v)

/-- The last-row branch of `validate_cursor_x`: on the final row an `x`
at or past the line length is decremented. -/
def vxStage2 (s1 : EditorState) (x1 : Int) : Option Int :=
  if s1.cursor_y + 1 = (s1.lines.length : Int) then
    (lineLen s1).map fun (n : Nat) => if (n : Int) ≤ x1 then x1 - 1 else x1
  else some x1

/-- The overflow branch of `validate_cursor_x` plus the final reactive
store: when `x` exceeds the last valid index, wrap to column `0` and
advance `self.cursor_y` one row; then `cursor_x` receives the returned
`x`. -/
def vxStage3 (setY : EditorState → Int → Option EditorState)
    (s1 : EditorState) (x2 : Int) : Option EditorState :=
  (lineLen s1).bind fun (n2 : Nat) =>
    if (n2 : Int) - 1 < x2 then
      (setY s1 (s1.cursor_y + 1)).map fun s2 => { s2 with cursor_x := 0 }
    else some { s1 with cursor_x := x2 }

/-- The body of `validate_cursor_y` after the row clamp `y2`,
parameterized by the recursive reactive column assignment: read the
destination line (`IndexError` if the line list is empty), double-step
over an empty line, clamp `self.cursor_x` against the destination line,
then store the returned row. -/
def vyBody (setX : EditorState → Int → Option EditorState)
    (s : EditorState) (y2 : Int) : Option EditorState :=
  (pyIdx s.lines y2).bind fun line =>
    (if (line.length : Int) < s.cursor_x then
        setX s ((line.length : Int) - 1)
      else some s).map fun s4 =>
      { s4 with cursor_y := if line.length = 0 then y2 + (y2 - s.cursor_y) else y2 }

/-- The two reactive cursor assignments, tied together on a shared fuel
(the flag selects `cursor_x` or `cursor_y`).  An assignment performed
inside a validator recursively triggers the other validator; `none`
means the fuel ran out or Python raised. -/
def cursorSet : Nat → Bool → EditorState → Int → Option EditorState
  | 0, _, _, _ => none
  | fuel + 1, true, s, v =>
    (vxStage1 (fun t w => cursorSet fuel false t w) s v).bind fun p =>
      (vxStage2 p.1 p.2).bind fun x2 =>
        vxStage3 (fun t w => cursorSet fuel false t w) p.1 x2
  | fuel + 1, false, s, v =>
    vyBody (fun t w => cursorSet fuel true t w) s (vyClampRow s.lines.length v)

/-- The reactive assignment `self.cursor_x = v`: runs
`validate_cursor_x(v)` and stores the returned value. -/
def setCursorX (fuel : Nat) (s : EditorState) (v : Int) : Option EditorState :=
  cursorSet fuel true s v

/-- The reactive assignment `self.cursor_y = v`: runs
`validate_cursor_y(v)` and stores the returned value. -/
def setCursorY (fuel : Nat) (s : EditorState) (v : Int) : Option EditorState :=
  cursorSet fuel false s v

/-- `action_cursor_left`: `self.cursor_x -= 1`. -/
def actionCursorLeft (fuel : Nat) (s : EditorState) : Option EditorState :=
  setCursorX fuel s (s.cursor_x - 1)

/-- `action_cursor_right`: `self.cursor_x += 1`. -/
def actionCursorRight (fuel : Nat) (s : EditorState) : Option EditorState :=
  setCursorX fuel s (s.cursor_x + 1)

/-- `action_cursor_up`: `self.cursor_y -= 1`. -/
def actionCursorUp (fuel : Nat) (s : EditorState) : Option EditorState :=
  setCursorY fuel s (s.cursor_y - 1)

/-- `action_cursor_down`: `self.cursor_y += 1`. -/
def actionCursorDown (fuel : Nat) (s : EditorState) : Option EditorState :=
  setCursorY fuel s (s.cursor_y + 1)

/-! ## Edit engine and change events -/

/-- The `TextArea.Changed` message: the deep-copied pre-edit buffer and
the live post-edit buffer. -/
structure Changed where
  previous : PartialString
  current : PartialString
deriving DecidableEq

/-- `start = sum([len(x)+1 for x in self.lines[:self.cursor_y]])`: the
linear buffer index at which the cursor's row starts. -/
def rowStart (s : EditorState) : Nat :=
  ((pySliceTo s.lines s.cursor_y).map fun x => x.length + 1).sum

/-- `TextArea.replace_char_at_cursor`: snapshot the buffer, overwrite
the single cell at `start + cursor_x`, and emit one `Changed` event
carrying the snapshot and the live buffer. -/
def replace_char_at_cursor (s : EditorState) (c : Option Char) :
    Option (EditorState × Changed) := do
  let start := rowStart s
  let prev := s.value
  let v ← s.value.setItem ((start : Int) + s.cursor_x) c
  pure ({ s with value := v }, ⟨prev, v⟩)

/-- The printable-key branch of `TextArea._on_key`: overwrite at the
cursor, then advance the cursor one column right. -/
def onKeyPrintable (fuel : Nat) (s : EditorState) (c : Char) :
    Option (EditorState × List Changed) := do
  let (s1, e) ← replace_char_at_cursor s (some c)
  let s2 ← setCursorX fuel s1 (s1.cursor_x + 1)
  pure (s2, [e])

/-- `action_delete_left` (backspace): move the cursor one position left
through the validation chain, then clear the cell at the resulting
position. -/
def actionDeleteLeft (fuel : Nat) (s : EditorState) :
    Option (EditorState × List Changed) := do
  let s1 ← setCursorX fuel s (s.cursor_x - 1)
  let (s2, e) ← replace_char_at_cursor s1 none
  pure (s2, [e])

/-- `action_delete_right` (delete): move the cursor one position right
through the validation chain, then clear the cell at the resulting
position. -/
def actionDeleteRight (fuel : Nat) (s : EditorState) :
    Option (EditorState × List Changed) := do
  let s1 ← setCursorX fuel s (s.cursor_x + 1)
  let (s2, e) ← replace_char_at_cursor s1 none
  pure (s2, [e])

/-- `CribDragger.on_text_area_changed`: if a callback was supplied it is
invoked once with the event's snapshots and its result replaces the
buffer; the second component counts callback invocations. -/
def on_text_area_changed
    (onChange : Option (PartialString → PartialString → PartialString))
    (cur : PartialString) (e : Changed) : PartialString × Nat :=
  match onChange with
  | some g => (g e.previous e.current, 1)
  | none => (cur, 0)

/-! ## Navigation sequences and the cursor invariant -/

/-- The four navigation operations of the claim set. -/
inductive NavOp
  | left
  | right
  | up
  | down
deriving DecidableEq

/-- Apply one navigation operation. -/
def applyNav (fuel : Nat) (s : EditorState) : NavOp → Option EditorState
  | NavOp.left => actionCursorLeft fuel s
  | NavOp.right => actionCursorRight fuel s
  | NavOp.up => actionCursorUp fuel s
  | NavOp.down => actionCursorDown fuel s

/-- Run a sequence of navigation operations. -/
def runNav (fuel : Nat) : List NavOp → EditorState → Option EditorState
  | [], s => some s
  | op :: ops, s => (applyNav fuel s op).bind (runNav fuel ops)

/-- The length of the line the cursor is on (`0` if the row is out of
range, which the invariant excludes). -/
def curLen (s : EditorState) : Nat :=
  ((pyIdx s.lines s.cursor_y).getD []).length

/-- The cursor invariant stated by the specification:
`0 ≤ row < lineCount` and `0 ≤ column ≤ currentLineLength`. -/
def Inv (s : EditorState) : Prop :=
  0 ≤ s.cursor_y ∧ s.cursor_y < (s.lines.length : Int) ∧
    0 ≤ s.cursor_x ∧ s.cursor_x ≤ (curLen s : Int)

instance (s : EditorState) : Decidable (Inv s) := by
  unfold Inv; infer_instance

/-- Layout side conditions: at least one display line, and no display
line is empty. -/
def GoodLines (s : EditorState) : Prop :=
  s.lines ≠ [] ∧ ∀ l ∈ s.lines, l ≠ []

instance (s : EditorState) : Decidable (GoodLines s) := by
  unfold GoodLines; infer_instance

/-- Reapplying `validate_cursor_x` to the stored column (the reactive
reassignment `self.cursor_x = self.cursor_x`). -/
def revalidateX (fuel : Nat) (s : EditorState) : Option EditorState :=
  setCursorX fuel s s.cursor_x

/-- Reapplying `validate_cursor_y` to the stored row (the reactive
reassignment `self.cursor_y = self.cursor_y`). -/
def revalidateY (fuel : Nat) (s : EditorState) : Option EditorState :=
  setCursorY fuel s s.cursor_y

/-! ## Basic facts about the Python-list primitives -/

theorem optSomeBind {α β : Type} (a : α) (f : α → Option β) :
    (some a).bind f = f a := rfl

theorem optSomeMap {α β : Type} (a : α) (f : α → β) :
    (some a).map f = some (f a) := rfl

theorem pyIdx_of_range {α : Type} (l : List α) (i : Int) (h0 : 0 ≤ i)
    (h1 : i < (l.length : Int)) : pyIdx l i = l[i.toNat]? := by
  unfold pyIdx
  rw [if_pos ⟨h0, h1⟩]

theorem pyIdx_some_of_range {α : Type} (l : List α) (i : Int) (h0 : 0 ≤ i)
    (h1 : i < (l.length : Int)) : ∃ x, pyIdx l i = some x ∧ x ∈ l := by
  have hlt : i.toNat < l.length := by omega
  refine ⟨l[i.toNat], ?_, List.getElem_mem hlt⟩
  rw [pyIdx_of_range l i h0 h1, List.getElem?_eq_getElem hlt]

theorem pyIdx_mem {α : Type} {l : List α} {i : Int} {x : α}
    (h : pyIdx l i = some x) : x ∈ l := by
  unfold pyIdx at h
  split at h
  · exact List.getElem?_mem h
  · split at h
    · exact List.getElem?_mem h
    · cases h

/-! ## Facts about the line wrapper -/

theorem splitOnNl_ne_nil (s : List Char) : splitOnNl s ≠ [] := by
  cases s with
  | nil => simp [splitOnNl]
  | cons c rest =>
    simp only [splitOnNl]
    split
    · simp
    · cases h : splitOnNl rest <;> simp

theorem joinNl_splitOnNl (s : List Char) : joinNl (splitOnNl s) = s := by
  induction s with
  | nil => rfl
  | cons c rest ih =>
    by_cases hc : c = '\n'
    · subst hc
      simp only [splitOnNl, if_pos rfl]
      cases h : splitOnNl rest with
      | nil => exact absurd h (splitOnNl_ne_nil rest)
      | cons l ls =>
        rw [h] at ih
        simpa [joinNl] using ih
    · simp only [splitOnNl, if_neg hc]
      cases h : splitOnNl rest with
      | nil => exact absurd h (splitOnNl_ne_nil rest)
      | cons l ls =>
        rw [h] at ih
        cases ls with
        | nil =>
          simp only [joinNl] at ih ⊢
          rw [ih]
        | cons l2 ls2 =>
          simp only [joinNl] at ih ⊢
          simp [ih]

theorem pySplitlines_eq (s : List Char) (h0 : s ≠ [])
    (h1 : s.getLast? ≠ some '\n') : pySplitlines s = splitOnNl s := by
  unfold pySplitlines
  rw [if_neg h0, if_neg h1]

theorem flatMap_keep (k : Nat) (ls : List (List Char))
    (h : ∀ l ∈ ls, l.length < k) :
    (ls.flatMap fun x =>
      if k ≤ x.length then chunksOf (k - 1) x else [x]) = ls := by
  induction ls with
  | nil => rfl
  | cons a t ih =>
    have ha : a.length < k := h a (by simp)
    simp only [List.flatMap_cons]
    rw [if_neg (by omega)]
    rw [ih (fun l hl => h l (by simp [hl]))]
    rfl

/-! ## Cursor-machine helper lemmas -/

theorem curLen_of_lineLen {s : EditorState} {n : Nat}
    (h : lineLen s = some n) : curLen s = n := by
  unfold lineLen at h
  rcases Option.map_eq_some'.mp h with ⟨l, hl, hlen⟩
  unfold curLen
  rw [hl]
  exact hlen

theorem curLine_facts (s : EditorState) (h0 : 0 ≤ s.cursor_y)
    (h1 : s.cursor_y < (s.lines.length : Int)) :
    ∃ line, pyIdx s.lines s.cursor_y = some line ∧ line ∈ s.lines ∧
      curLen s = line.length ∧ lineLen s = some line.length := by
  obtain ⟨line, hl, hm⟩ := pyIdx_some_of_range s.lines s.cursor_y h0 h1
  exact ⟨line, hl, hm, by unfold curLen; rw [hl]; rfl, by unfold lineLen; rw [hl]; rfl⟩

theorem curLen_pos_of (s : EditorState) (hg : GoodLines s)
    (h0 : 0 ≤ s.cursor_y) (h1 : s.cursor_y < (s.lines.length : Int)) :
    0 < curLen s := by
  obtain ⟨line, _, hm, hcl, _⟩ := curLine_facts s h0 h1
  have := hg.2 line hm
  rw [hcl]
  exact List.length_pos.mpr this

theorem vyClampRow_range (L : Nat) (v : Int) (hL : 0 < L) :
    0 ≤ vyClampRow L v ∧ vyClampRow L v < (L : Int) := by
  unfold vyClampRow
  split <;> split <;> omega

theorem vyClampRow_id (L : Nat) (v : Int) (h0 : 0 ≤ v) (h1 : v < (L : Int)) :
    vyClampRow L v = v := by
  unfold vyClampRow
  split <;> split <;> omega

theorem setCursorX_zero (s : EditorState) (v : Int) : setCursorX 0 s v = none := rfl

theorem setCursorY_zero (s : EditorState) (v : Int) : setCursorY 0 s v = none := rfl

theorem setCursorX_succ (f : Nat) (s : EditorState) (v : Int) :
    setCursorX (f + 1) s v =
      (vxStage1 (setCursorY f) s v).bind fun p =>
        (vxStage2 p.1 p.2).bind fun x2 => vxStage3 (setCursorY f) p.1 x2 := rfl

theorem setCursorY_succ (f : Nat) (s : EditorState) (v : Int) :
    setCursorY (f + 1) s v = vyBody (setCursorX f) s (vyClampRow s.lines.length v) := rfl

/-- When the requested column is in `[0, lineLength - 1]` and no branch
of `validate_cursor_x` can fire, stages 2 and 3 store that column
unchanged. -/
theorem vxStage23_inbounds (g : EditorState → Int → Option EditorState)
    (s1 : EditorState) (x1 : Int) (n : Nat) (hn : lineLen s1 = some n)
    (_hx0 : 0 ≤ x1) (hx1 : x1 ≤ (n : Int) - 1) :
    ((vxStage2 s1 x1).bind fun x2 => vxStage3 g s1 x2) =
      some { s1 with cursor_x := x1 } := by
  have h2 : vxStage2 s1 x1 = some x1 := by
    unfold vxStage2
    by_cases hc : s1.cursor_y + 1 = (s1.lines.length : Int)
    · rw [if_pos hc, hn, optSomeMap, if_neg (by omega)]
    · rw [if_neg hc]
  rw [h2, optSomeBind]
  unfold vxStage3
  rw [hn, optSomeBind, if_neg (by omega)]

/-- The nested reassignment `self.cursor_x = len(line) - 1` performed by
`validate_cursor_y`'s clamp is branch-free whenever the destination line
is nonempty and no longer than the cursor's current line. -/
theorem setX_branchfree (f : Nat) (s : EditorState) (m n : Nat)
    (hm : 0 < m) (hn : lineLen s = some n) (hmn : m ≤ n) :
    setCursorX (f + 1) s ((m : Int) - 1) =
      some { s with cursor_x := (m : Int) - 1 } := by
  rw [setCursorX_succ]
  have h1 : vxStage1 (setCursorY f) s ((m : Int) - 1) = some (s, (m : Int) - 1) := by
    unfold vxStage1
    rw [if_neg (by omega)]
  rw [h1, optSomeBind]
  exact vxStage23_inbounds (setCursorY f) s ((m : Int) - 1) n hn (by omega) (by omega)

/-- One mutual-induction step: from a state satisfying the layout side
conditions and the cursor invariant, every successful reactive cursor
assignment preserves the line list, the buffer and the invariant. -/
theorem nav_preserve :
    ∀ fuel : Nat,
      (∀ (s : EditorState) (v : Int) (s' : EditorState),
          GoodLines s → Inv s → setCursorX fuel s v = some s' →
          s'.lines = s.lines ∧ s'.value = s.value ∧ Inv s') ∧
      (∀ (s : EditorState) (v : Int) (s' : EditorState),
          GoodLines s → Inv s → setCursorY fuel s v = some s' →
          s'.lines = s.lines ∧ s'.value = s.value ∧ Inv s') := by
  intro fuel
  induction fuel with
  | zero =>
    refine ⟨?_, ?_⟩ <;> intro s v s' _ _ h
    · rw [setCursorX_zero] at h
      cases h
    · rw [setCursorY_zero] at h
      cases h
  | succ f ih =>
    obtain ⟨ihX, ihY⟩ := ih
    constructor
    · -- `self.cursor_x = v` at fuel `f + 1`
      intro s v s' hg hi h
      rw [setCursorX_succ] at h
      rcases Option.bind_eq_some.mp h with ⟨p, hp1, hrest⟩
      by_cases hv : v < 0
      · -- branch `x < 0`: step the row back, then land in bounds
        unfold vxStage1 at hp1
        rw [if_pos hv] at hp1
        rcases Option.bind_eq_some.mp hp1 with ⟨s1, hs1, hp⟩
        obtain ⟨hl1, hval1, hi1⟩ := ihY s (s.cursor_y - 1) s1 hg hi hs1
        have hg1 : GoodLines s1 := by
          unfold GoodLines at hg ⊢
          rw [hl1]
          exact hg
        obtain ⟨line1, hline1, hmem1, hcl1, hll1⟩ := curLine_facts s1 hi1.1 hi1.2.1
        have hpos1 : 0 < line1.length := List.length_pos.mpr (hg1.2 line1 hmem1)
        by_cases heq : s.cursor_y = s1.cursor_y
        · rw [if_pos heq] at hp
          obtain rfl := Option.some.inj hp
          rw [vxStage23_inbounds (setCursorY f) s1 0 line1.length hll1 le_rfl
            (by omega)] at hrest
          obtain rfl := Option.some.inj hrest
          refine ⟨hl1, hval1, hi1.1, hi1.2.1, le_rfl, ?_⟩
          show (0 : Int) ≤ (curLen s1 : Int)
          omega
        · rw [if_neg heq] at hp
          rcases Option.map_eq_some'.mp hp with ⟨n, hn, rfl⟩
          have hnval : line1.length = n := by
            rw [hll1] at hn
            exact Option.some.inj hn
          rw [vxStage23_inbounds (setCursorY f) s1 ((n : Int) - 1) n hn
            (by omega) (by omega)] at hrest
          obtain rfl := Option.some.inj hrest
          refine ⟨hl1, hval1, hi1.1, hi1.2.1, ?_, ?_⟩
          · show (0 : Int) ≤ (n : Int) - 1
            omega
          show ((n : Int) - 1) ≤ (curLen s1 : Int)
          rw [hcl1]
          omega
      · -- `v ≥ 0`: stage 1 is the identity
        unfold vxStage1 at hp1
        rw [if_neg hv] at hp1
        obtain rfl := Option.some.inj hp1
        rcases Option.bind_eq_some.mp hrest with ⟨x2, h2a, h3⟩
        obtain ⟨cur, hcur, hcmem, hcl, hll⟩ := curLine_facts s hi.1 hi.2.1
        have hpos : 0 < cur.length := List.length_pos.mpr (hg.2 cur hcmem)
        have hx2 : x2 = v ∨ (x2 = v - 1 ∧ (cur.length : Int) ≤ v) := by
          unfold vxStage2 at h2a
          by_cases hc : s.cursor_y + 1 = (s.lines.length : Int)
          · rw [if_pos hc, hll, optSomeMap] at h2a
            have hval := (Option.some.inj h2a).symm
            by_cases hle : (cur.length : Int) ≤ v
            · right
              rw [if_pos hle] at hval
              exact ⟨hval, hle⟩
            · left
              rw [if_neg hle] at hval
              exact hval
          · rw [if_neg hc] at h2a
            exact Or.inl (Option.some.inj h2a).symm
        unfold vxStage3 at h3
        rw [hll, optSomeBind] at h3
        by_cases hov : (cur.length : Int) - 1 < x2
        · rw [if_pos hov] at h3
          rcases Option.map_eq_some'.mp h3 with ⟨s2, hs2, rfl⟩
          obtain ⟨hl2, hval2, hi2⟩ := ihY s (s.cursor_y + 1) s2 hg hi hs2
          refine ⟨hl2, hval2, hi2.1, hi2.2.1, le_rfl, ?_⟩
          show (0 : Int) ≤ (curLen s2 : Int)
          omega
        · rw [if_neg hov] at h3
          obtain rfl := Option.some.inj h3
          refine ⟨rfl, rfl, hi.1, hi.2.1, ?_, ?_⟩
          · show (0 : Int) ≤ x2
            rcases hx2 with rfl | ⟨rfl, hge⟩ <;> omega
          · show x2 ≤ (curLen s : Int)
            rw [hcl]
            omega
    · -- `self.cursor_y = v` at fuel `f + 1`
      intro s v s' hg hi h
      have hL : 0 < s.lines.length := List.length_pos.mpr hg.1
      rw [setCursorY_succ] at h
      obtain ⟨hy0, hy1⟩ := vyClampRow_range s.lines.length v hL
      unfold vyBody at h
      rcases Option.bind_eq_some.mp h with ⟨line, hline, h2⟩
      have hmem : line ∈ s.lines := pyIdx_mem hline
      have hlinePos : 0 < line.length := List.length_pos.mpr (hg.2 line hmem)
      rcases Option.map_eq_some'.mp h2 with ⟨s4, hs4, hs'⟩
      rw [if_neg (by omega : ¬ line.length = 0)] at hs'
      have hcurnew : ∀ t : EditorState, t.lines = s.lines →
          curLen { t with cursor_y := vyClampRow s.lines.length v } = line.length := by
        intro t ht
        unfold curLen
        dsimp only
        rw [ht, hline]
        rfl
      by_cases hclamp : (line.length : Int) < s.cursor_x
      · rw [if_pos hclamp] at hs4
        obtain ⟨cur, hcur, hcmem, hcl, hll⟩ := curLine_facts s hi.1 hi.2.1
        have hmn : line.length ≤ cur.length := by
          have hx := hi.2.2.2
          rw [hcl] at hx
          omega
        cases f with
        | zero =>
          rw [setCursorX_zero] at hs4
          cases hs4
        | succ g =>
          rw [setX_branchfree g s line.length cur.length hlinePos hll hmn] at hs4
          obtain rfl := Option.some.inj hs4
          subst hs'
          refine ⟨rfl, rfl, hy0, hy1, ?_, ?_⟩
          · show (0 : Int) ≤ (line.length : Int) - 1
            omega
          show ((line.length : Int) - 1) ≤ _
          rw [hcurnew { s with cursor_x := (line.length : Int) - 1 } rfl]
          omega
      · rw [if_neg hclamp] at hs4
        obtain rfl := Option.some.inj hs4
        subst hs'
        refine ⟨rfl, rfl, hy0, hy1, hi.2.2.1, ?_⟩
        show s.cursor_x ≤ _
        rw [hcurnew s rfl]
        omega

/-- Sequences of navigation operations preserve the line list and the
cursor invariant. -/
theorem runNav_preserve (fuel : Nat) (ops : List NavOp) :
    ∀ (s s' : EditorState), GoodLines s → Inv s → runNav fuel ops s = some s' →
      s'.lines = s.lines ∧ Inv s' := by
  induction ops with
  | nil =>
    intro s s' _ hi h
    obtain rfl := Option.some.inj h
    exact ⟨rfl, hi⟩
  | cons op ops ih =>
    intro s s' hg hi h
    rw [show runNav fuel (op :: ops) s = (applyNav fuel s op).bind (runNav fuel ops)
      from rfl] at h
    rcases Option.bind_eq_some.mp h with ⟨t, ht, h2⟩
    have hstep : t.lines = s.lines ∧ t.value = s.value ∧ Inv t := by
      cases op with
      | left => exact (nav_preserve fuel).1 s (s.cursor_x - 1) t hg hi ht
      | right => exact (nav_preserve fuel).1 s (s.cursor_x + 1) t hg hi ht
      | up => exact (nav_preserve fuel).2 s (s.cursor_y - 1) t hg hi ht
      | down => exact (nav_preserve fuel).2 s (s.cursor_y + 1) t hg hi ht
    have hgt : GoodLines t := by
      unfold GoodLines at hg ⊢
      rw [hstep.1]
      exact hg
    obtain ⟨hl, hinv⟩ := ih t s' hgt hstep.2.2 h2
    exact ⟨by rw [hl, hstep.1], hinv⟩

/-- Revalidating the stored row of an invariant-satisfying state on a
layout with no empty lines is the identity. -/
theorem revalidateY_id (f : Nat) (s : EditorState) (hg : GoodLines s) (hi : Inv s) :
    revalidateY (f + 1) s = some s := by
  obtain ⟨line, hline, hmem, hcl, hll⟩ := curLine_facts s hi.1 hi.2.1
  have hpos : 0 < line.length := List.length_pos.mpr (hg.2 line hmem)
  unfold revalidateY
  rw [setCursorY_succ, vyClampRow_id _ _ hi.1 hi.2.1]
  unfold vyBody
  rw [hline, optSomeBind]
  rw [if_neg (show ¬ (line.length : Int) < s.cursor_x by
    have := hi.2.2.2
    rw [hcl] at this
    omega)]
  rw [optSomeMap, if_neg (by omega : ¬ line.length = 0)]

/-- Stepping the row forward from an invariant-satisfying state on a
layout with no empty lines succeeds and lands on the next row. -/
theorem setY_next (g : Nat) (s : EditorState) (hg : GoodLines s) (hi : Inv s)
    (hlt : s.cursor_y + 1 < (s.lines.length : Int)) :
    ∃ t, setCursorY (g + 2) s (s.cursor_y + 1) = some t := by
  have hy0 : (0 : Int) ≤ s.cursor_y + 1 := by
    have := hi.1
    omega
  obtain ⟨line', hline', hmem'⟩ :=
    pyIdx_some_of_range s.lines (s.cursor_y + 1) hy0 hlt
  have hpos' : 0 < line'.length := List.length_pos.mpr (hg.2 line' hmem')
  rw [show (g + 2) = (g + 1) + 1 from rfl, setCursorY_succ,
    vyClampRow_id _ _ hy0 hlt]
  unfold vyBody
  rw [hline', optSomeBind]
  by_cases hclamp : (line'.length : Int) < s.cursor_x
  · obtain ⟨cur, hcur, hcmem, hcl, hll⟩ := curLine_facts s hi.1 hi.2.1
    have hmn : line'.length ≤ cur.length := by
      have := hi.2.2.2
      rw [hcl] at this
      omega
    rw [if_pos hclamp, setX_branchfree g s line'.length cur.length hpos' hll hmn,
      optSomeMap]
    exact ⟨_, rfl⟩
  · rw [if_neg hclamp, optSomeMap]
    exact ⟨_, rfl⟩

/-- Revalidating a stored column that is strictly inside the current
line is the identity. -/
theorem revalidateX_fix (g : Nat) (s : EditorState) (hi : Inv s)
    (hlt : s.cursor_x < (curLen s : Int)) :
    revalidateX (g + 1) s = some s := by
  obtain ⟨line, hline, hmem, hcl, hll⟩ := curLine_facts s hi.1 hi.2.1
  unfold revalidateX
  rw [setCursorX_succ]
  have h1 : vxStage1 (setCursorY g) s s.cursor_x = some (s, s.cursor_x) := by
    unfold vxStage1
    rw [if_neg (show ¬ s.cursor_x < 0 by have := hi.2.2.1; omega)]
  rw [h1, optSomeBind, vxStage23_inbounds (setCursorY g) s s.cursor_x line.length hll
    hi.2.2.1 (by rw [hcl] at hlt; omega)]

/-- Revalidating the stored column of an invariant-satisfying state on a
layout with no empty lines succeeds and yields a state whose column is
strictly inside its line. -/
theorem revalidateX_total (f : Nat) (s : EditorState) (hg : GoodLines s) (hi : Inv s) :
    ∃ s', revalidateX (f + 3) s = some s' ∧ GoodLines s' ∧ Inv s' ∧
      s'.cursor_x < (curLen s' : Int) := by
  obtain ⟨cur, hcur, hcmem, hcl, hll⟩ := curLine_facts s hi.1 hi.2.1
  have hpos : 0 < cur.length := List.length_pos.mpr (hg.2 cur hcmem)
  by_cases hlt : s.cursor_x < (curLen s : Int)
  · refine ⟨s, ?_, hg, hi, hlt⟩
    rw [show (f + 3) = (f + 2) + 1 from rfl]
    exact revalidateX_fix (f + 2) s hi hlt
  · have hx : s.cursor_x = (cur.length : Int) := by
      have h1 := hi.2.2.2
      rw [hcl] at h1 hlt
      omega
    unfold revalidateX
    rw [show (f + 3) = (f + 2) + 1 from rfl, setCursorX_succ]
    have h1 : vxStage1 (setCursorY (f + 2)) s s.cursor_x = some (s, s.cursor_x) := by
      unfold vxStage1
      rw [if_neg (show ¬ s.cursor_x < 0 by have := hi.2.2.1; omega)]
    rw [h1, optSomeBind]
    by_cases hc : s.cursor_y + 1 = (s.lines.length : Int)
    · -- final row: `validate_cursor_x` decrements the overflowing column
      have h2 : vxStage2 s s.cursor_x = some (s.cursor_x - 1) := by
        unfold vxStage2
        rw [if_pos hc, hll, optSomeMap, if_pos (by omega)]
      rw [h2, optSomeBind]
      unfold vxStage3
      rw [hll, optSomeBind, if_neg (by omega)]
      refine ⟨{ s with cursor_x := s.cursor_x - 1 }, rfl, hg, ⟨hi.1, hi.2.1, ?_, ?_⟩, ?_⟩
      · show (0 : Int) ≤ s.cursor_x - 1
        omega
      · show s.cursor_x - 1 ≤ (curLen s : Int)
        omega
      · show s.cursor_x - 1 < (curLen s : Int)
        omega
    · -- interior row: wrap to column 0 of the next row
      have hlt2 : s.cursor_y + 1 < (s.lines.length : Int) := by
        have := hi.2.1
        omega
      obtain ⟨t, ht⟩ := setY_next f s hg hi hlt2
      obtain ⟨htl, htv, hit⟩ := (nav_preserve (f + 2)).2 s (s.cursor_y + 1) t hg hi ht
      have hgt : GoodLines t := by
        unfold GoodLines at hg ⊢
        rw [htl]
        exact hg
      have h2 : vxStage2 s s.cursor_x = some s.cursor_x := by
        unfold vxStage2
        rw [if_neg hc]
      rw [h2, optSomeBind]
      unfold vxStage3
      rw [hll, optSomeBind, if_pos (by omega), ht, optSomeMap]
      refine ⟨{ t with cursor_x := 0 }, rfl, ?_, ⟨hit.1, hit.2.1, le_rfl, ?_⟩, ?_⟩
      · unfold GoodLines at hgt ⊢
        exact hgt
      · show (0 : Int) ≤ (curLen t : Int)
        omega
      · show (0 : Int) < (curLen t : Int)
        have := curLen_pos_of t hgt hit.1 hit.2.1
        omega

/-! ## Concrete scenario data -/

/-- The reference text `"Test\nTest\nTEsst"` of scenario 1. -/
def scenario1Text : List Char :=
  ['T', 'e', 's', 't', '\n', 'T', 'e', 's', 't', '\n', 'T', 'E', 's', 's', 't']

/-- The display lines scenario 1's text wraps to at any width large
enough to avoid chunking. -/
def scenario1Lines : List (List Char) :=
  [['T', 'e', 's', 't'], ['T', 'e', 's', 't'], ['T', 'E', 's', 's', 't']]

/-- Scenario 1's initial editor state: wrapped lines, fully-unknown
buffer of length 15, cursor at `(0, 0)`. -/
def scenario1State : EditorState :=
  ⟨scenario1Lines, 0, 0, PartialString.mk0 15⟩

/-- Scenario 2: from scenario 1, press right-arrow four times, then type
the character `'X'`. -/
def scenario2Run : Option (EditorState × List Changed) := do
  let s1 ← actionCursorRight 10 scenario1State
  let s2 ← actionCursorRight 10 s1
  let s3 ← actionCursorRight 10 s2
  let s4 ← actionCursorRight 10 s3
  onKeyPrintable 10 s4 'X'

/-- A wrapped layout containing an empty display line: the wrap of
`"a\n\n"`. -/
def emptyLineLayout : List (List Char) := [['a'], []]

/-- A three-cell fully-known buffer used to probe `PartialString`
indexing. -/
def bufThree : PartialString := ⟨3, '_', [some 'a', none, some 'c']⟩

/-- A one-line editor state whose buffer holds `"abc"`, cursor at
`(0, 0)`. -/
def abcState : EditorState :=
  ⟨[['a', 'b', 'c']], 0, 0, ⟨3, '_', [some 'a', some 'b', some 'c']⟩⟩

/-- A one-line editor state over `"abc"` with a fully-unknown buffer,
cursor at `(0, 0)`. -/
def originState : EditorState := ⟨[['a', 'b', 'c']], 0, 0, PartialString.mk0 3⟩

/-- A two-cell state used as a witness input for the edit-engine
claims. -/
def twoCellState : EditorState := ⟨[['a', 'b']], 1, 0, ⟨2, '_', [some 'a', some 'b']⟩⟩

/-! ## Claims -/

/-- C3, counterexample: the round trip fails as stated.  For the text
`"a\n"` (trailing terminator) the wrapper drops the trailing empty line,
so rejoining yields `"a"`; and at width 1 the text `"AAAA"` is chunked,
so rejoining inserts a terminator that was never in the source. -/
theorem c3_cex :
    (update_lines [] ['a', '\n'] 100).map joinNl = some ['a'] ∧
    some ['a'] ≠ some ['a', '\n'] ∧
    (update_lines [] ['A', 'A', 'A', 'A'] 1).map joinNl =
      some ['A', 'A', '\n', 'A', 'A'] ∧
    some ['A', 'A', '\n', 'A', 'A'] ≠ some ['A', 'A', 'A', 'A'] := by
  decide

/-- C3, amended: for every reference text that does not end in a line
terminator and every width large enough that no raw line is chunked
(every line shorter than `2 * w`), concatenating the wrapped lines with
one terminator reinserted between consecutive lines reproduces the
original text exactly. -/
theorem c3_thm (text : List Char) (w : Nat)
    (h1 : text.getLast? ≠ some '\n')
    (h2 : ∀ l ∈ pySplitlines text, l.length < 2 * w) :
    (update_lines [] text w).map joinNl = some text := by
  by_cases h0 : text = []
  · subst h0
    simp [update_lines, pySplitlines, joinNl]
  · have hs : pySplitlines text = splitOnNl text := pySplitlines_eq text h0 h1
    have hne : pySplitlines text ≠ [] := by
      rw [hs]
      exact splitOnNl_ne_nil text
    have hk : ¬(w * 2 = 0 ∧ pySplitlines text ≠ []) := by
      rintro ⟨hzero, -⟩
      cases hsp : pySplitlines text with
      | nil => exact hne hsp
      | cons a t =>
        have := h2 a (by rw [hsp]; exact List.mem_cons_self a t)
        omega
    unfold update_lines
    rw [if_neg hk, flatMap_keep (w * 2) (pySplitlines text)
      (fun l hl => by have := h2 l hl; omega)]
    rw [hs, List.nil_append, Option.map_some', joinNl_splitOnNl]

/-- C3, witness: the amended round trip at the concrete text `"ab\ncd"`
and width 3. -/
theorem c3_witness :
    (['a', 'b', '\n', 'c', 'd'].getLast? ≠ some '\n') ∧
    (∀ l ∈ pySplitlines ['a', 'b', '\n', 'c', 'd'], l.length < 2 * 3) ∧
    (update_lines [] ['a', 'b', '\n', 'c', 'd'] 3).map joinNl =
      some ['a', 'b', '\n', 'c', 'd'] :=
  ⟨by decide, by decide, c3_thm ['a', 'b', '\n', 'c', 'd'] 3 (by decide) (by decide)⟩

/-- C4, counterexample: a negative index in `[-3, 0)` is outside
`[0, 3)` yet `get`, `set` and `clear` all succeed silently (Python
negative indexing aliases cell `n + i`), instead of failing. -/
theorem c4_cex :
    ((-1 : Int) < 0 ∨ (3 : Int) ≤ (-1 : Int)) ∧
    bufThree.getItem (-1) = some (some 'c') ∧
    bufThree.getItem (-1) ≠ none ∧
    bufThree.setItem (-3) (some 'z') = some ⟨3, '_', [some 'z', none, some 'c']⟩ ∧
    bufThree.delItem (-1) = some ⟨3, '_', [some 'a', none, none]⟩ := by
  decide

/-- C4, amended: `get(i)`, `set(i, c)` and `clear(i)` fail exactly for
`i ≥ n` or `i < -n`; a negative `i` in `[-n, 0)` does not fail but
silently aliases the cell at `n + i`. -/
theorem c4_thm :
    (∀ (p : PartialString) (i : Int) (c : Option Char),
        ((p.val.length : Int) ≤ i ∨ i < -(p.val.length : Int)) →
        p.getItem i = none ∧ p.setItem i c = none ∧ p.delItem i = none) ∧
    (∀ (p : PartialString) (i : Int),
        -(p.val.length : Int) ≤ i → i < 0 →
        p.getItem i = p.val[((p.val.length : Int) + i).toNat]?) := by
  constructor
  · intro p i c h
    have hA : ¬(0 ≤ i ∧ i < (p.val.length : Int)) := by omega
    have hB : ¬(-(p.val.length : Int) ≤ i ∧ i < 0) := by omega
    refine ⟨?_, ?_, ?_⟩
    · unfold PartialString.getItem pyIdx
      rw [if_neg hA, if_neg hB]
    · unfold PartialString.setItem pyWrite
      rw [if_neg hA, if_neg hB]
      rfl
    · unfold PartialString.delItem PartialString.setItem pyWrite
      rw [if_neg hA, if_neg hB]
      rfl
  · intro p i h0 h1
    have hA : ¬(0 ≤ i ∧ i < (p.val.length : Int)) := by omega
    unfold PartialString.getItem pyIdx
    rw [if_neg hA, if_pos ⟨h0, h1⟩]

/-- C4, witness: the amended contract at a length-3 buffer, index 5 (a
failing access) and index -2 (a silent alias of cell 1). -/
theorem c4_witness :
    (((bufThree.val.length : Int) ≤ 5 ∨ (5 : Int) < -(bufThree.val.length : Int)) ∧
      bufThree.getItem 5 = none ∧ bufThree.setItem 5 (some 'q') = none ∧
      bufThree.delItem 5 = none) ∧
    ((-(bufThree.val.length : Int) ≤ -2 ∧ (-2 : Int) < 0) ∧
      bufThree.getItem (-2) = bufThree.val[((bufThree.val.length : Int) + -2).toNat]?) :=
  ⟨⟨by decide, c4_thm.1 bufThree 5 (some 'q') (by decide)⟩,
    ⟨by decide, c4_thm.2 bufThree (-2) (by decide) (by decide)⟩⟩

/-- C5: with a valid computed linear index, an edit overwrites exactly
the cell at that index, leaves every other cell unchanged, keeps the
buffer length, and the emitted event's `previous` snapshot equals the
pre-edit buffer. -/
theorem c5_thm (s : EditorState) (c : Option Char)
    (h0 : 0 ≤ (rowStart s : Int) + s.cursor_x)
    (h1 : (rowStart s : Int) + s.cursor_x < (s.value.val.length : Int)) :
    ∃ v' : PartialString,
      replace_char_at_cursor s c = some ({ s with value := v' }, ⟨s.value, v'⟩) ∧
      (⟨s.value, v'⟩ : Changed).previous = s.value ∧
      v'.val.length = s.value.val.length ∧
      v'.val[((rowStart s : Int) + s.cursor_x).toNat]? = some c ∧
      ∀ j : Nat, (j : Int) ≠ (rowStart s : Int) + s.cursor_x →
        v'.val[j]? = s.value.val[j]? := by
  refine ⟨{ s.value with
      val := s.value.val.set ((rowStart s : Int) + s.cursor_x).toNat c },
    ?_, rfl, ?_, ?_, ?_⟩
  · unfold replace_char_at_cursor
    dsimp only
    unfold PartialString.setItem pyWrite
    rw [if_pos ⟨h0, h1⟩]
    rfl
  · exact List.length_set s.value.val _ c
  · exact List.getElem?_set_self (by omega)
  · intro j hj
    exact List.getElem?_set_ne (by omega)

/-- C5, witness: the frame property at a concrete two-cell state. -/
theorem c5_witness :
    ((0 : Int) ≤ (rowStart twoCellState : Int) + twoCellState.cursor_x ∧
      (rowStart twoCellState : Int) + twoCellState.cursor_x <
        (twoCellState.value.val.length : Int)) ∧
    (∃ v' : PartialString,
      replace_char_at_cursor twoCellState (some 'z') =
        some ({ twoCellState with value := v' }, ⟨twoCellState.value, v'⟩) ∧
      (⟨twoCellState.value, v'⟩ : Changed).previous = twoCellState.value ∧
      v'.val.length = twoCellState.value.val.length ∧
      v'.val[((rowStart twoCellState : Int) + twoCellState.cursor_x).toNat]? =
        some (some 'z') ∧
      ∀ j : Nat, (j : Int) ≠ (rowStart twoCellState : Int) + twoCellState.cursor_x →
        v'.val[j]? = twoCellState.value.val[j]?) :=
  ⟨⟨by decide, by decide⟩, c5_thm twoCellState (some 'z') (by decide) (by decide)⟩

/-- C7: the line list is not rebuilt from scratch.  Calling
`update_lines` a second time (as `on_resize` does) appends the newly
wrapped lines to the previously stored ones, so after a resize the list
is the old list concatenated with the fresh wrap, not the fresh wrap. -/
theorem c7_thm :
    update_lines [] scenario1Text 100 = some scenario1Lines ∧
    update_lines scenario1Lines scenario1Text 100 =
      some (scenario1Lines ++ scenario1Lines) ∧
    scenario1Lines ++ scenario1Lines ≠ scenario1Lines := by
  decide

/-- C8: wrapping with `maxWidth = 0` does not terminate normally: every
raw line satisfies `len(x) >= 0`, so the chunking branch runs
`range(0, len(x), 0)` and Python raises `ValueError` (modelled as
`none`), already for the one-character text `"A"`. -/
theorem c8_thm : update_lines [] ['A'] 0 = none := by decide

/-- C10: every edit emits exactly one change event, and the app-level
handler invokes the external callback exactly once per event; in
particular backspace at the origin still clears cell 0 (already
unknown) and still fires an event whose `previous` equals `current`. -/
theorem c10_thm :
    (∀ (fuel : Nat) (s : EditorState) (r : EditorState × List Changed),
        actionDeleteLeft fuel s = some r → r.2.length = 1) ∧
    (∀ (fuel : Nat) (s : EditorState) (c : Char) (r : EditorState × List Changed),
        onKeyPrintable fuel s c = some r → r.2.length = 1) ∧
    (∀ (fuel : Nat) (s : EditorState) (r : EditorState × List Changed),
        actionDeleteRight fuel s = some r → r.2.length = 1) ∧
    (∀ (g : PartialString → PartialString → PartialString) (cur : PartialString)
        (e : Changed), (on_text_area_changed (some g) cur e).2 = 1) ∧
    actionDeleteLeft 10 originState =
      some (originState, [⟨originState.value, originState.value⟩]) := by
  refine ⟨?_, ?_, ?_, fun g cur e => rfl, by decide⟩
  · intro fuel s r h
    unfold actionDeleteLeft at h
    rcases Option.bind_eq_some.mp h with ⟨s1, _, h⟩
    rcases Option.bind_eq_some.mp h with ⟨⟨s2, e⟩, _, h⟩
    obtain rfl := Option.some.inj h
    rfl
  · intro fuel s c r h
    unfold onKeyPrintable at h
    rcases Option.bind_eq_some.mp h with ⟨⟨s1, e⟩, _, h⟩
    rcases Option.bind_eq_some.mp h with ⟨s2, _, h⟩
    obtain rfl := Option.some.inj h
    rfl
  · intro fuel s r h
    unfold actionDeleteRight at h
    rcases Option.bind_eq_some.mp h with ⟨s1, _, h⟩
    rcases Option.bind_eq_some.mp h with ⟨⟨s2, e⟩, _, h⟩
    obtain rfl := Option.some.inj h
    rfl

/-- C1, counterexample: the claim is false at its own scenario.  After
four right-arrow presses the cursor has wrapped to `(0, 1)`, so typing
`'X'` writes linear index `5` (row start `4 + 1`); the cell at linear
index 4 — the position consumed by the stripped newline — is still
unknown, not `'X'`. -/
theorem c1_cex :
    update_lines [] scenario1Text 100 = some scenario1Lines ∧
    scenario2Run.map (fun p => (p.1.value.getItem 4, p.1.cursor_x, p.1.cursor_y)) =
      some (some none, 1, 1) ∧
    (some (none : Option Char) : Option (Option Char)) ≠ some (some 'X') := by
  decide

/-- C1, amended: in scenario 2 the typed `'X'` lands at linear index 5
(the first editable cell of row 1; index 4 is consumed by the stripped
terminator), exactly one change event is emitted, and the cursor ends at
column 1, row 1. -/
theorem c1_thm :
    update_lines [] scenario1Text 100 = some scenario1Lines ∧
    scenario2Run.map
        (fun p => (p.1.value.getItem 5, p.1.cursor_x, p.1.cursor_y, p.2.length)) =
      some (some (some 'X'), 1, 1, 1) := by
  decide

/-- C2, counterexample: on the wrapped layout of `"a\n\n"` (which has an
empty second line) a single `moveDown` from `(0, 0)` double-steps to row
2, violating `row < lineCount = 2`. -/
theorem c2_cex :
    update_lines [] ['a', '\n', '\n'] 100 = some emptyLineLayout ∧
    (runNav 10 [NavOp.down] ⟨emptyLineLayout, 0, 0, PartialString.mk0 3⟩).map
      (fun t => (t.cursor_x, t.cursor_y)) = some (0, 2) ∧
    ¬ ((2 : Int) < (emptyLineLayout.length : Int)) := by
  decide

/-- C2, amended: on every layout with at least one line and no empty
lines, after any sequence of the four navigation operations from
`(0, 0)` the cursor satisfies `0 ≤ row < lineCount` and
`0 ≤ column ≤ currentLineLength` (and the layout is untouched). -/
theorem c2_thm (fuel : Nat) (layout : List (List Char)) (buf : PartialString)
    (ops : List NavOp) (s' : EditorState)
    (hne : layout ≠ []) (hall : ∀ l ∈ layout, l ≠ [])
    (h : runNav fuel ops ⟨layout, 0, 0, buf⟩ = some s') :
    Inv s' ∧ s'.lines = layout := by
  have hg : GoodLines ⟨layout, 0, 0, buf⟩ := ⟨hne, hall⟩
  have hL : 0 < layout.length := List.length_pos.mpr hne
  have hi : Inv ⟨layout, 0, 0, buf⟩ := by
    refine ⟨le_rfl, ?_, le_rfl, ?_⟩
    · show (0 : Int) < (layout.length : Int)
      omega
    · show (0 : Int) ≤ (curLen ⟨layout, 0, 0, buf⟩ : Int)
      omega
  obtain ⟨hl, hinv⟩ := runNav_preserve fuel ops _ s' hg hi h
  exact ⟨hinv, hl⟩

/-- C2, witness: the invariant after a concrete three-step navigation
run on a one-line layout. -/
theorem c2_witness :
    (([['a', 'b']] : List (List Char)) ≠ [] ∧
      ∀ l ∈ ([['a', 'b']] : List (List Char)), l ≠ []) ∧
    runNav 10 [NavOp.right, NavOp.down, NavOp.left]
        ⟨[['a', 'b']], 0, 0, PartialString.mk0 2⟩ =
      some ⟨[['a', 'b']], 0, 0, PartialString.mk0 2⟩ ∧
    (Inv ⟨[['a', 'b']], 0, 0, PartialString.mk0 2⟩ ∧
      (⟨[['a', 'b']], 0, 0, PartialString.mk0 2⟩ : EditorState).lines = [['a', 'b']]) :=
  ⟨⟨by decide, by decide⟩, by decide,
    c2_thm 10 [['a', 'b']] (PartialString.mk0 2)
      [NavOp.right, NavOp.down, NavOp.left]
      ⟨[['a', 'b']], 0, 0, PartialString.mk0 2⟩ (by decide) (by decide) (by decide)⟩

/-- Evaluating `replace_char_at_cursor` at a valid linear index. -/
theorem replace_char_eq (s : EditorState) (c : Option Char)
    (h0 : 0 ≤ (rowStart s : Int) + s.cursor_x)
    (h1 : (rowStart s : Int) + s.cursor_x < (s.value.val.length : Int)) :
    replace_char_at_cursor s c =
      some ({ s with value := { s.value with
          val := s.value.val.set ((rowStart s : Int) + s.cursor_x).toNat c } },
        ⟨s.value, { s.value with
          val := s.value.val.set ((rowStart s : Int) + s.cursor_x).toNat c }⟩) := by
  unfold replace_char_at_cursor
  dsimp only
  unfold PartialString.setItem pyWrite
  rw [if_pos ⟨h0, h1⟩]
  rfl

theorem rowStart_set_x (s : EditorState) (x : Int) :
    rowStart { s with cursor_x := x } = rowStart s := rfl

/-- C6, counterexample: delete does not clear first and then move.  At
`(0, 0)` over the buffer `"abc"`, delete leaves the cell under the
pre-press cursor (index 0) untouched and clears index 1 instead, which
is what move-then-clear produces and clear-then-move does not. -/
theorem c6_cex :
    (actionDeleteRight 10 abcState).map
      (fun p => (p.1.value.val, p.1.cursor_x, p.1.cursor_y)) =
      some ([some 'a', none, some 'c'], 1, 0) ∧
    ([some 'a', none, some 'c'] : List (Option Char)) ≠
      [none, some 'b', some 'c'] := by
  decide

/-- C6, amended: with the cursor strictly inside a line (and the linear
index in buffer range), backspace moves the cursor one column left and
clears the cell at linear index `start + column - 1` (the cell to the
left of the pre-press cursor), while delete moves the cursor one column
right first and then clears linear index `start + column + 1` (the cell
to the right of the pre-press cursor) — both move before clearing. -/
theorem c6_thm (fuel : Nat) (s : EditorState) (hi : Inv s)
    (hx0 : 0 < s.cursor_x) (hxr : s.cursor_x + 1 < (curLen s : Int))
    (hbuf : (rowStart s : Int) + s.cursor_x + 1 < (s.value.val.length : Int)) :
    (∃ vL : PartialString,
        s.value.setItem ((rowStart s : Int) + s.cursor_x - 1) none = some vL ∧
        actionDeleteLeft (fuel + 1) s =
          some ({ s with cursor_x := s.cursor_x - 1, value := vL },
            [⟨s.value, vL⟩])) ∧
    (∃ vR : PartialString,
        s.value.setItem ((rowStart s : Int) + s.cursor_x + 1) none = some vR ∧
        actionDeleteRight (fuel + 1) s =
          some ({ s with cursor_x := s.cursor_x + 1, value := vR },
            [⟨s.value, vR⟩])) := by
  obtain ⟨cur, hcur, hcmem, hcl, hll⟩ := curLine_facts s hi.1 hi.2.1
  rw [hcl] at hxr
  constructor
  · have hmove : setCursorX (fuel + 1) s (s.cursor_x - 1) =
        some { s with cursor_x := s.cursor_x - 1 } := by
      rw [setCursorX_succ]
      have h1 : vxStage1 (setCursorY fuel) s (s.cursor_x - 1) =
          some (s, s.cursor_x - 1) := by
        unfold vxStage1
        rw [if_neg (by omega : ¬ s.cursor_x - 1 < 0)]
      rw [h1, optSomeBind]
      exact vxStage23_inbounds (setCursorY fuel) s (s.cursor_x - 1) cur.length hll
        (by omega) (by omega)
    have hrep := replace_char_eq { s with cursor_x := s.cursor_x - 1 } none
      (by show (0 : Int) ≤ (rowStart s : Int) + (s.cursor_x - 1); omega)
      (by show (rowStart s : Int) + (s.cursor_x - 1) < (s.value.val.length : Int); omega)
    rw [rowStart_set_x] at hrep
    refine ⟨{ s.value with
        val := s.value.val.set ((rowStart s : Int) + s.cursor_x - 1).toNat none },
      ?_, ?_⟩
    · unfold PartialString.setItem pyWrite
      rw [if_pos ⟨by omega, by omega⟩]
      rfl
    · unfold actionDeleteLeft
      refine Option.bind_eq_some.mpr ⟨_, hmove, ?_⟩
      refine Option.bind_eq_some.mpr ⟨_, hrep, ?_⟩
      dsimp only
      rw [show (rowStart s : Int) + (s.cursor_x - 1) =
        (rowStart s : Int) + s.cursor_x - 1 from by ring]
      rfl
  · have hmove : setCursorX (fuel + 1) s (s.cursor_x + 1) =
        some { s with cursor_x := s.cursor_x + 1 } := by
      rw [setCursorX_succ]
      have h1 : vxStage1 (setCursorY fuel) s (s.cursor_x + 1) =
          some (s, s.cursor_x + 1) := by
        unfold vxStage1
        rw [if_neg (by omega : ¬ s.cursor_x + 1 < 0)]
      rw [h1, optSomeBind]
      exact vxStage23_inbounds (setCursorY fuel) s (s.cursor_x + 1) cur.length hll
        (by omega) (by omega)
    have hrep := replace_char_eq { s with cursor_x := s.cursor_x + 1 } none
      (by show (0 : Int) ≤ (rowStart s : Int) + (s.cursor_x + 1); omega)
      (by show (rowStart s : Int) + (s.cursor_x + 1) < (s.value.val.length : Int); omega)
    rw [rowStart_set_x] at hrep
    refine ⟨{ s.value with
        val := s.value.val.set ((rowStart s : Int) + s.cursor_x + 1).toNat none },
      ?_, ?_⟩
    · unfold PartialString.setItem pyWrite
      rw [if_pos ⟨by omega, by omega⟩]
      rfl
    · unfold actionDeleteRight
      refine Option.bind_eq_some.mpr ⟨_, hmove, ?_⟩
      refine Option.bind_eq_some.mpr ⟨_, hrep, ?_⟩
      dsimp only
      rw [show (rowStart s : Int) + (s.cursor_x + 1) =
        (rowStart s : Int) + s.cursor_x + 1 from by ring]
      rfl

/-- C6, witness: the amended backspace/delete behavior at a concrete
state: one line `"abcd"`, buffer `"abcd"`, cursor at column 2. -/
theorem c6_witness :
    (Inv ⟨[['a', 'b', 'c', 'd']], 2, 0,
        ⟨4, '_', [some 'a', some 'b', some 'c', some 'd']⟩⟩ ∧
      (0 : Int) < 2 ∧
      (2 : Int) + 1 <
        (curLen ⟨[['a', 'b', 'c', 'd']], 2, 0,
          ⟨4, '_', [some 'a', some 'b', some 'c', some 'd']⟩⟩ : Int)) ∧
    ((∃ vL : PartialString,
        (⟨4, '_', [some 'a', some 'b', some 'c', some 'd']⟩ :
            PartialString).setItem ((rowStart ⟨[['a', 'b', 'c', 'd']], 2, 0,
              ⟨4, '_', [some 'a', some 'b', some 'c', some 'd']⟩⟩ : Int) + 2 - 1)
            none = some vL ∧
        actionDeleteLeft 10 ⟨[['a', 'b', 'c', 'd']], 2, 0,
            ⟨4, '_', [some 'a', some 'b', some 'c', some 'd']⟩⟩ =
          some ({ (⟨[['a', 'b', 'c', 'd']], 2, 0,
              ⟨4, '_', [some 'a', some 'b', some 'c', some 'd']⟩⟩ : EditorState) with
                cursor_x := 2 - 1, value := vL },
            [⟨⟨4, '_', [some 'a', some 'b', some 'c', some 'd']⟩, vL⟩])) ∧
      (∃ vR : PartialString,
        (⟨4, '_', [some 'a', some 'b', some 'c', some 'd']⟩ :
            PartialString).setItem ((rowStart ⟨[['a', 'b', 'c', 'd']], 2, 0,
              ⟨4, '_', [some 'a', some 'b', some 'c', some 'd']⟩⟩ : Int) + 2 + 1)
            none = some vR ∧
        actionDeleteRight 10 ⟨[['a', 'b', 'c', 'd']], 2, 0,
            ⟨4, '_', [some 'a', some 'b', some 'c', some 'd']⟩⟩ =
          some ({ (⟨[['a', 'b', 'c', 'd']], 2, 0,
              ⟨4, '_', [some 'a', some 'b', some 'c', some 'd']⟩⟩ : EditorState) with
                cursor_x := 2 + 1, value := vR },
            [⟨⟨4, '_', [some 'a', some 'b', some 'c', some 'd']⟩, vR⟩]))) :=
  ⟨⟨by decide, by decide, by decide⟩,
    c6_thm 9 ⟨[['a', 'b', 'c', 'd']], 2, 0,
        ⟨4, '_', [some 'a', some 'b', some 'c', some 'd']⟩⟩
      (by decide) (by decide) (by decide) (by decide)⟩

/-- A cursor state on the empty-line layout satisfying the cursor
invariant, on which the validators are not idempotent. -/
def c9State : EditorState := ⟨emptyLineLayout, 0, 1, PartialString.mk0 3⟩

/-- C9, counterexample: on the wrapped layout of `"a\n\n"` with the
cursor at `(0, 1)` (a state satisfying the cursor invariant), applying
`validate_cursor_x` once yields column `-1` on row 1, and applying it
twice yields `(0, 0)` — revalidation is not idempotent. -/
theorem c9_cex :
    Inv c9State ∧
    ((revalidateX 10 c9State).bind fun t => revalidateX 10 t) ≠
      revalidateX 10 c9State := by
  decide

/-- C9, amended: on layouts with at least one line and no empty lines,
for states satisfying the cursor invariant, revalidating the row is the
identity (hence idempotent) and revalidating the column is idempotent. -/
theorem c9_thm (f : Nat) (s : EditorState) (hg : GoodLines s) (hi : Inv s) :
    revalidateY (f + 1) s = some s ∧
    ((revalidateY (f + 1) s).bind fun t => revalidateY (f + 1) t) =
      revalidateY (f + 1) s ∧
    ((revalidateX (f + 3) s).bind fun t => revalidateX (f + 3) t) =
      revalidateX (f + 3) s := by
  have hY : revalidateY (f + 1) s = some s := revalidateY_id f s hg hi
  refine ⟨hY, ?_, ?_⟩
  · rw [hY, optSomeBind, hY]
  · obtain ⟨s', hs', hg', hi', hlt'⟩ := revalidateX_total f s hg hi
    have hfix : revalidateX (f + 3) s' = some s' := by
      rw [show (f + 3) = (f + 2) + 1 from rfl]
      exact revalidateX_fix (f + 2) s' hi' hlt'
    rw [hs', optSomeBind, hfix]

/-- C9, witness: idempotence of both validators at a concrete one-line
state. -/
theorem c9_witness :
    (GoodLines twoCellState ∧ Inv twoCellState) ∧
    (revalidateY 1 twoCellState = some twoCellState ∧
      ((revalidateY 1 twoCellState).bind fun t => revalidateY 1 t) =
        revalidateY 1 twoCellState ∧
      ((revalidateX 3 twoCellState).bind fun t => revalidateX 3 t) =
        revalidateX 3 twoCellState) :=
  ⟨⟨by decide, by decide⟩, c9_thm 0 twoCellState (by decide) (by decide)⟩

/-- C10, witness: the single-event property applied to the concrete
backspace-at-origin run. -/
theorem c10_witness :
    actionDeleteLeft 10 originState =
      some (originState, [⟨originState.value, originState.value⟩]) ∧
    ([⟨originState.value, originState.value⟩] : List Changed).length = 1 :=
  ⟨by decide,
    c10_thm.1 10 originState (originState, [⟨originState.value, originState.value⟩])
      (by decide)⟩

end CribDragger
